import Mathlib

/-!
Shallow embedding of the sizematters-server room directory and per-room
voting state machine (Rust sources under src/actors/room), together with
theorems settling the specification claims.

Modelling conventions:
* Rust `HashMap<String, V>` becomes an association list `List (String × V)`
  with `insertA` (replace-in-place or append), `removeA`, `lookupA`,
  `containsA` mirroring `HashMap::insert/remove/get/contains_key`.
* Actor message sends become explicit `Output` events returned alongside the
  new state; `try_send` is modelled as always succeeding (its failure branch
  performs no local mutation, only a cleanup message to the manager).
* The md5 hex digest used by `compute_password` is abstracted as an explicit
  function parameter `md5hex : String → String`.
* The random draw in `randomize` is abstracted as an explicit `Nat`
  parameter, the value `rand::rng().random_range(0..len)` would return.
-/

/-- Association-list lookup, mirroring `HashMap::get`. -/
def lookupA {α : Type} : List (String × α) → String → Option α
  | [], _ => none
  | p :: rest, k => if p.1 == k then some p.2 else lookupA rest k

/-- Association-list key test, mirroring `HashMap::contains_key`. -/
def containsA {α : Type} : List (String × α) → String → Bool
  | [], _ => false
  | p :: rest, k => p.1 == k || containsA rest k

/-- Association-list insert: replaces the entry in place when the key is
present, appends otherwise; mirrors `HashMap::insert`. -/
def insertA {α : Type} : List (String × α) → String → α → List (String × α)
  | [], k, v => [(k, v)]
  | p :: rest, k, v => if p.1 == k then (k, v) :: rest else p :: insertA rest k v

/-- Association-list removal, mirroring `HashMap::remove`. -/
def removeA {α : Type} : List (String × α) → String → List (String × α)
  | [], _ => []
  | p :: rest, k => if p.1 == k then removeA rest k else p :: removeA rest k

/-- data.rs: UserData. -/
structure UserData where
  user_id : String
  name : String
  gravatar_id : String
deriving DecidableEq, Repr

/-- data.rs: Scale (an internal key, a display label, ordered value labels). -/
structure Scale where
  name : String
  displayName : String
  values : List String
deriving DecidableEq, Repr

/-- room_actor.rs: ConnectionInfo { user, recipient }.  The outbound channel
`Recipient<ClientResponseMessage>` is modelled as an opaque numeric id. -/
structure ConnectionInfo where
  user : UserData
  recipient : Nat
deriving DecidableEq, Repr

/-- messages.rs: ClientResponseMessage.  Variants and field shapes are taken
from their construction sites in room_actor.rs, room_manager.rs,
join_room.rs, leave_room.rs and vote.rs. -/
inductive ClientResponseMessage where
  | RoomJoined (room_name : String) (hashed_password : String)
      (users : List UserData) (votes_cast : Nat)
      (scale_values : List (String × Scale)) (selected_scale_name : String)
  | UserJoined (room_name : String) (user : UserData)
  | UserLeft (room_name : String) (user_id : String)
  | UserUpdated (user : UserData)
  | OwnVote (room_name : String) (size : String)
  | VoteStatus (room_name : String) (votes : List (String × Bool))
  | VoteResults (room_name : String) (votes : List (String × String))
  | NewVote (room_name : String)
  | AlreadyInRoom (room_name : String)
  | WrongPassword (room_name : String)
  | InvalidRoomName
  | CannotJoinMultipleRooms
  | VotingOver
  | Randomized (room_name : String) (selected_user_id : String)
  | ScaleChanged (room_name : String) (selected_scale : Scale)
  | ActiveUpdated (room_name : String) (user_id : String) (active : Bool)
deriving DecidableEq, Repr

/-- messages.rs: the RoomMessage variants a RoomActor sends back to the
RoomManagerActor. -/
inductive RoomMessage where
  | UserLeft (user_id : String)
  | RoomClosing (room_name : String)
deriving DecidableEq, Repr

/-- An observable message emission.  `notify_user` becomes `toUser`,
`notify_users` becomes `broadcast` carrying the member ids iterated at call
time (active then passive), `notify_manager` becomes `toManager`. -/
inductive Output where
  | toUser (user_id : String) (msg : ClientResponseMessage)
  | broadcast (recipients : List String) (msg : ClientResponseMessage)
  | toManager (msg : RoomMessage)
deriving DecidableEq, Repr

/-- room_actor.rs: the RoomActor state fields. -/
structure RoomState where
  name : String
  hashed_password : String
  active_user_map : List (String × ConnectionInfo)
  passive_user_map : List (String × ConnectionInfo)
  vote_map : List (String × String)
  voting_over_flag : Bool
  scale_values : List (String × Scale)
  selected_scale_name : String
deriving DecidableEq, Repr

/-- room_actor.rs: compute_password — returns the password itself when
`password_is_hash`, otherwise its md5 hex digest (abstracted as `md5hex`). -/
def compute_password (md5hex : String → String) (password : String)
    (password_is_hash : Bool) : String :=
  if password_is_hash then password else md5hex password

/-- room_actor.rs: the fibonacci scale entry built in RoomActor::new. -/
def fibonacciScale : Scale :=
  { name := "fibonacci", displayName := "Fibonacci",
    values := ["0", "1", "2", "3", "5", "8", "13", "NV"] }

/-- room_actor.rs: the fistOfFive scale entry built in RoomActor::new. -/
def fistOfFiveScale : Scale :=
  { name := "fistOfFive", displayName := "FistOfFive",
    values := ["1", "2", "3", "4", "5", "NV"] }

/-- room_actor.rs: the fixed scale catalog inserted in RoomActor::new. -/
def defaultScales : List (String × Scale) :=
  [("fibonacci", fibonacciScale), ("fistOfFive", fistOfFiveScale)]

/-- room_actor.rs: RoomActor::new. -/
def RoomActor.new (md5hex : String → String) (name password : String)
    (password_is_hash : Bool) : RoomState :=
  { name := name,
    hashed_password := compute_password md5hex password password_is_hash,
    active_user_map := [],
    passive_user_map := [],
    vote_map := [],
    voting_over_flag := false,
    scale_values := defaultScales,
    selected_scale_name := "fibonacci" }

/-- vote.rs: RoomActor::voting_over — vote-map size equals active-map size
(note: no non-emptiness condition in the source). -/
def voting_over (s : RoomState) : Bool :=
  s.vote_map.length == s.active_user_map.length

/-- The member ids `notify_users` iterates: active then passive. -/
def member_ids (s : RoomState) : List String :=
  s.active_user_map.map Prod.fst ++ s.passive_user_map.map Prod.fst

/-- room_actor.rs: notify_users — a broadcast to every current member. -/
def mkBroadcast (s : RoomState) (msg : ClientResponseMessage) : Output :=
  Output.broadcast (member_ids s) msg

/-- vote.rs: the participant→has-voted map built in send_vote_info. -/
def has_voted_map (s : RoomState) : List (String × Bool) :=
  s.active_user_map.map (fun p => (p.1, containsA s.vote_map p.1))

/-- vote.rs: RoomActor::send_vote_info — broadcasts VoteResults with the full
vote map when voting_over, otherwise VoteStatus with has-voted booleans. -/
def send_vote_info (s : RoomState) : List Output :=
  if voting_over s then
    [mkBroadcast s (ClientResponseMessage.VoteResults s.name s.vote_map)]
  else
    [mkBroadcast s (ClientResponseMessage.VoteStatus s.name (has_voted_map s))]

/-- room_actor.rs: RoomActor::in_room. -/
def in_room (s : RoomState) (user_id : String) : Bool :=
  containsA s.active_user_map user_id || containsA s.passive_user_map user_id

/-- join_room.rs: RoomActor::do_join_room — broadcasts UserJoined to the
members present before insertion, inserts the joiner as active, then sends
the RoomJoined snapshot (active users then passive users) to the joiner. -/
def RoomState.do_join_room (s : RoomState) (user : UserData) (recipient : Nat) :
    RoomState × List Output :=
  let out1 := mkBroadcast s (ClientResponseMessage.UserJoined s.name user)
  let s' := { s with active_user_map :=
                insertA s.active_user_map user.user_id ⟨user, recipient⟩ }
  let users := s'.active_user_map.map (fun p => p.2.user) ++
               s'.passive_user_map.map (fun p => p.2.user)
  let join_msg := ClientResponseMessage.RoomJoined s'.name s'.hashed_password
      users s'.vote_map.length s'.scale_values s'.selected_scale_name
  (s', [out1, Output.toUser user.user_id join_msg])

/-- join_room.rs: RoomActor::join_room — AlreadyInRoom when the participant
is a member (active or passive), WrongPassword on commitment mismatch,
otherwise admission via do_join_room. -/
def RoomState.join_room (md5hex : String → String) (s : RoomState)
    (password : String) (password_is_hash : Bool) (user : UserData)
    (recipient : Nat) : RoomState × List Output :=
  let hashed := compute_password md5hex password password_is_hash
  if in_room s user.user_id then
    (s, [Output.toUser user.user_id (ClientResponseMessage.AlreadyInRoom s.name)])
  else if !(s.hashed_password == hashed) then
    (s, [Output.toUser user.user_id (ClientResponseMessage.WrongPassword s.name)])
  else
    s.do_join_room user recipient

/-- leave_room.rs: RoomActor::leave_room — broadcast UserLeft, remove the
participant from whichever membership map holds them, drop their vote,
re-broadcast round status, and signal RoomClosing when no active member is
left. -/
def RoomState.leave_room (s : RoomState) (user_id : String) :
    RoomState × List Output :=
  let out1 := mkBroadcast s (ClientResponseMessage.UserLeft s.name user_id)
  let s1 :=
    if containsA s.active_user_map user_id then
      { s with active_user_map := removeA s.active_user_map user_id }
    else if containsA s.passive_user_map user_id then
      { s with passive_user_map := removeA s.passive_user_map user_id }
    else s
  let s2 := { s1 with vote_map := removeA s1.vote_map user_id }
  let out2 := send_vote_info s2
  let out3 :=
    if s2.active_user_map.isEmpty then
      [Output.toManager (RoomMessage.RoomClosing s2.name)]
    else []
  (s2, out1 :: (out2 ++ out3))

/-- vote.rs: RoomActor::vote — when voting is over, an active member gets a
VotingOver reply and nothing changes; otherwise an active member's vote is
recorded (overwriting), the voter gets OwnVote, and round status is
broadcast only when this is the participant's first vote of the round.
Non-members are ignored in both branches. -/
def RoomState.vote (s : RoomState) (user_id size : String) :
    RoomState × List Output :=
  if voting_over s then
    match lookupA s.active_user_map user_id with
    | none => (s, [])
    | some ci =>
        (s, [Output.toUser ci.user.user_id ClientResponseMessage.VotingOver])
  else
    match lookupA s.active_user_map user_id with
    | none => (s, [])
    | some ci =>
        let already_voted := containsA s.vote_map user_id
        let s' := { s with vote_map := insertA s.vote_map user_id size }
        (s', Output.toUser ci.user.user_id
               (ClientResponseMessage.OwnVote s.name size) ::
             (if already_voted then [] else send_vote_info s'))

/-- vote.rs: RoomActor::new_vote — for a current member, clears the vote map
and the voting_over flag and broadcasts NewVote; otherwise only logs. -/
def RoomState.new_vote (s : RoomState) (user_id : String) :
    RoomState × List Output :=
  if in_room s user_id then
    let s' := { s with voting_over_flag := false, vote_map := [] }
    (s', [mkBroadcast s' (ClientResponseMessage.NewVote s'.name)])
  else (s, [])

/-- room_actor.rs: RoomActor::user_updated — updates the stored profile in
the active map and then, independently, in the passive map, broadcasting
UserUpdated from whichever map matched. -/
def RoomState.user_updated (s : RoomState) (user : UserData) :
    RoomState × List Output :=
  let step1 : RoomState × List Output :=
    match lookupA s.active_user_map user.user_id with
    | none => (s, [])
    | some ci =>
        let s' := { s with active_user_map :=
                      insertA s.active_user_map user.user_id { ci with user := user } }
        (s', [mkBroadcast s' (ClientResponseMessage.UserUpdated user)])
  let s1 := step1.1
  match lookupA s1.passive_user_map user.user_id with
  | none => (s1, step1.2)
  | some ci =>
      let s2 := { s1 with passive_user_map :=
                    insertA s1.passive_user_map user.user_id { ci with user := user } }
      (s2, step1.2 ++ [mkBroadcast s2 (ClientResponseMessage.UserUpdated user)])

/-- room_actor.rs: RoomActor::randomize — collects the active ids, picks
index 0 unless the active map has more than one entry (in which case the
abstracted random draw `rand` is used), and broadcasts Randomized; with an
empty active map nothing is selected and nothing is broadcast.  The method
takes `&self`, so the room state is never mutated. -/
def RoomState.randomize (s : RoomState) (rand : Nat) : List Output :=
  let users := s.active_user_map.map Prod.fst
  let user_index := if s.active_user_map.length > 1 then rand else 0
  match users.get? user_index with
  | none => []
  | some uid => [mkBroadcast s (ClientResponseMessage.Randomized s.name uid)]

/-- room_actor.rs: RoomActor::change_scale — an unknown scale key is only
logged (no state change, no message); a known key becomes the selected
scale name and ScaleChanged is broadcast with its definition. -/
def RoomState.change_scale (s : RoomState) (selected_scale_name : String) :
    RoomState × List Output :=
  match lookupA s.scale_values selected_scale_name with
  | none => (s, [])
  | some sc =>
      let s' := { s with selected_scale_name := selected_scale_name }
      (s', [mkBroadcast s' (ClientResponseMessage.ScaleChanged s'.name sc)])

/-- room_actor.rs: RoomActor::update_active — moves a participant between the
active and passive maps; demotion also drops their vote and re-broadcasts
round status; ActiveUpdated is broadcast in every case. -/
def RoomState.update_active (s : RoomState) (user_id : String) (active : Bool) :
    RoomState × List Output :=
  let moved : RoomState × List Output :=
    if active then
      match lookupA s.passive_user_map user_id with
      | none => (s, [])
      | some ci =>
          ({ s with active_user_map := insertA s.active_user_map user_id ci,
                    passive_user_map := removeA s.passive_user_map user_id }, [])
    else
      match lookupA s.active_user_map user_id with
      | none => (s, [])
      | some ci =>
          let s' := { s with passive_user_map := insertA s.passive_user_map user_id ci,
                             active_user_map := removeA s.active_user_map user_id,
                             vote_map := removeA s.vote_map user_id }
          (s', send_vote_info s')
  let s1 := moved.1
  (s1, moved.2 ++
    [mkBroadcast s1 (ClientResponseMessage.ActiveUpdated s.name user_id active)])

/-- The operations a RoomActor handles (RoomMessage variants dispatched in
room_actor.rs `Handler<RoomMessage>`). -/
inductive RoomOp where
  | join (password : String) (password_is_hash : Bool) (user : UserData)
      (recipient : Nat)
  | leave (user_id : String)
  | vote (user_id : String) (size : String)
  | newRound (user_id : String)
  | updateActive (user_id : String) (active : Bool)
  | changeScale (selected_scale_name : String)
  | randomize (rand : Nat)
  | profileUpdated (user : UserData)
deriving DecidableEq, Repr

/-- Dispatch of one RoomMessage by the RoomActor handler. -/
def RoomState.step (md5hex : String → String) (s : RoomState) (op : RoomOp) :
    RoomState × List Output :=
  match op with
  | RoomOp.join password ih user recipient => s.join_room md5hex password ih user recipient
  | RoomOp.leave user_id => s.leave_room user_id
  | RoomOp.vote user_id size => s.vote user_id size
  | RoomOp.newRound user_id => s.new_vote user_id
  | RoomOp.updateActive user_id active => s.update_active user_id active
  | RoomOp.changeScale nm => s.change_scale nm
  | RoomOp.randomize rand => (s, s.randomize rand)
  | RoomOp.profileUpdated user => s.user_updated user

/-- room_manager.rs: the RoomManagerActor state — the room registry and the
participant→room directory. -/
structure SystemState where
  rooms : List (String × RoomState)
  user_room_map : List (String × String)
deriving DecidableEq, Repr

/-- room_manager.rs: the room-name pattern `^[-_a-zA-Z]{1,50}$` checked by
`room_name_validator.is_match`. -/
def valid_room_name (rn : String) : Bool :=
  decide (1 ≤ rn.length) && decide (rn.length ≤ 50) &&
    rn.data.all (fun c =>
      c == '-' || c == '_' ||
      ('a' ≤ c && c ≤ 'z') || ('A' ≤ c && c ≤ 'Z'))

/-- room_manager.rs: RoomManagerActor::join_room composed with
do_join_room and, when reached, the RoomActor's own join handling.
Mirrors the source order: validate the name, create the room if absent,
then check the participant's directory entry; only when no entry exists is
the join forwarded to the room and the mapping recorded. -/
def handleJoinRoom (md5hex : String → String) (s : SystemState)
    (room_name password : String) (password_is_hash : Bool) (user : UserData)
    (recipient : Nat) : SystemState × List Output :=
  if valid_room_name room_name then
    let rooms1 :=
      if containsA s.rooms room_name then s.rooms
      else insertA s.rooms room_name
             (RoomActor.new md5hex room_name password password_is_hash)
    match lookupA s.user_room_map user.user_id with
    | none =>
        match lookupA rooms1 room_name with
        | none => ({ rooms := rooms1, user_room_map := s.user_room_map }, [])
        | some r =>
            let res := r.join_room md5hex password password_is_hash user recipient
            ({ rooms := insertA rooms1 room_name res.1,
               user_room_map := insertA s.user_room_map user.user_id room_name },
             res.2)
    | some _ =>
        ({ rooms := rooms1, user_room_map := s.user_room_map },
         [Output.toUser user.user_id ClientResponseMessage.CannotJoinMultipleRooms])
  else
    (s, [Output.toUser user.user_id ClientResponseMessage.InvalidRoomName])

/-- room_manager.rs: RoomManagerActor::leave_room composed with the room's
leave handling — removes the participant's directory entry (if any) and
forwards LeaveRoom to the named room when it exists.  Any RoomClosing the
room emits appears among the outputs; the manager processes it separately
via `room_closing`. -/
def handleLeaveRoom (s : SystemState) (user_id room_name : String) :
    SystemState × List Output :=
  let urm1 := removeA s.user_room_map user_id
  match lookupA s.rooms room_name with
  | none => ({ rooms := s.rooms, user_room_map := urm1 }, [])
  | some r =>
      let res := r.leave_room user_id
      ({ rooms := insertA s.rooms room_name res.1, user_room_map := urm1 }, res.2)

/-- room_manager.rs: RoomManagerActor::room_closing — removes only the
room-name→room entry from the registry; the user_room_map is untouched. -/
def room_closing (s : SystemState) (room_name : String) : SystemState :=
  { s with rooms := removeA s.rooms room_name }

/-- The room-state invariant of the spec: active and passive member maps have
disjoint key sets, and every vote key is an active key.  Stated in Prop form
for the preservation proofs. -/
def RoomInv (s : RoomState) : Prop :=
  (∀ k, containsA s.active_user_map k = true →
      containsA s.passive_user_map k = false) ∧
  (∀ k, containsA s.vote_map k = true → containsA s.active_user_map k = true)

/-- The room-state invariant as an executable Boolean check over the maps. -/
def roomInvariant (s : RoomState) : Bool :=
  s.active_user_map.all (fun p => !(containsA s.passive_user_map p.1)) &&
  s.vote_map.all (fun p => containsA s.active_user_map p.1)

/-- Concrete fixture: participant p. -/
def userP : UserData := { user_id := "p", name := "P", gravatar_id := "gp" }

/-- Concrete fixture: participant q. -/
def userQ : UserData := { user_id := "q", name := "Q", gravatar_id := "gq" }

/-- Concrete fixture: p's connection. -/
def ciP : ConnectionInfo := { user := userP, recipient := 0 }

/-- Concrete fixture: q's connection. -/
def ciQ : ConnectionInfo := { user := userQ, recipient := 1 }

/-- Concrete fixture: a room with p as its only (active) member and no votes
cast. -/
def roomOneActive : RoomState :=
  { name := "room", hashed_password := "h", active_user_map := [("p", ciP)],
    passive_user_map := [], vote_map := [], voting_over_flag := false,
    scale_values := defaultScales, selected_scale_name := "fibonacci" }

/-- Concrete fixture: a room with an empty active set and q as a passive
member. -/
def roomNoActive : RoomState :=
  { name := "room", hashed_password := "h", active_user_map := [],
    passive_user_map := [("q", ciQ)], vote_map := [],
    voting_over_flag := false, scale_values := defaultScales,
    selected_scale_name := "fibonacci" }

/-- Concrete fixture: a room with p active (p has voted "3") and q passive. -/
def roomPQ : RoomState :=
  { name := "room", hashed_password := "h", active_user_map := [("p", ciP)],
    passive_user_map := [("q", ciQ)], vote_map := [("p", "3")],
    voting_over_flag := false, scale_values := defaultScales,
    selected_scale_name := "fibonacci" }

/-- Concrete fixture: the room "roomA" with p as its only member. -/
def roomA : RoomState :=
  { name := "roomA", hashed_password := "h", active_user_map := [("p", ciP)],
    passive_user_map := [], vote_map := [], voting_over_flag := false,
    scale_values := defaultScales, selected_scale_name := "fibonacci" }

/-- Concrete fixture: directory holding "room" with p inside and p's
directory entry. -/
def sysP : SystemState :=
  { rooms := [("room", roomOneActive)], user_room_map := [("p", "room")] }

/-- Concrete fixture: directory holding "roomA" with p inside and p's
directory entry. -/
def sysA : SystemState :=
  { rooms := [("roomA", roomA)], user_room_map := [("p", "roomA")] }

/-- Concrete fixture: directory holding "room" (no active members, q
passive) and q's directory entry. -/
def sysC : SystemState :=
  { rooms := [("room", roomNoActive)], user_room_map := [("q", "room")] }

/-- Concrete fixture: directory holding "room" with p inside; q has no
directory entry. -/
def sysR : SystemState :=
  { rooms := [("room", roomOneActive)], user_room_map := [("p", "room")] }

theorem containsA_iff {α : Type} (m : List (String × α)) (k : String) :
    containsA m k = true ↔ ∃ v, (k, v) ∈ m := by
  induction m with
  | nil => simp [containsA]
  | cons p rest ih =>
    simp only [containsA, Bool.or_eq_true, beq_iff_eq, ih, List.mem_cons]
    constructor
    · rintro (h | ⟨v, hv⟩)
      · exact ⟨p.2, Or.inl (by cases p; simp at h; simp [h])⟩
      · exact ⟨v, Or.inr hv⟩
    · rintro ⟨v, (h | h)⟩
      · left; cases p; cases h; rfl
      · right; exact ⟨v, h⟩

theorem containsA_insertA_iff {α : Type} (m : List (String × α)) (k j : String)
    (v : α) :
    containsA (insertA m k v) j = true ↔ (containsA m j = true ∨ j = k) := by
  induction m with
  | nil =>
    simp only [insertA, containsA, Bool.or_eq_true, beq_iff_eq]
    constructor
    · rintro (h | h)
      · exact Or.inr h.symm
      · simp at h
    · rintro (h | h)
      · simp [containsA] at h
      · exact Or.inl h.symm
  | cons p rest ih =>
    simp only [insertA]
    by_cases hpk : p.1 = k
    · simp only [hpk, beq_self_eq_true, if_true, containsA, Bool.or_eq_true,
        beq_iff_eq]
      constructor
      · rintro (h | h)
        · exact Or.inr h.symm
        · exact Or.inl (Or.inr h)
      · rintro ((h | h) | h)
        · exact Or.inl (hpk ▸ h)
        · exact Or.inr h
        · exact Or.inl h.symm
    · simp only [beq_iff_eq, hpk, if_false, containsA, Bool.or_eq_true, ih]
      tauto

theorem containsA_removeA_iff {α : Type} (m : List (String × α)) (k j : String) :
    containsA (removeA m k) j = true ↔ (containsA m j = true ∧ j ≠ k) := by
  induction m with
  | nil => simp [removeA, containsA]
  | cons p rest ih =>
    simp only [removeA]
    by_cases hpk : p.1 = k
    · simp only [hpk, beq_self_eq_true, if_true, ih, containsA, Bool.or_eq_true,
        beq_iff_eq]
      constructor
      · rintro ⟨h1, h2⟩; exact ⟨Or.inr h1, h2⟩
      · rintro ⟨(h1 | h1), h2⟩
        · exact absurd h1.symm h2
        · exact ⟨h1, h2⟩
    · simp only [beq_iff_eq, hpk, if_false, containsA, Bool.or_eq_true, ih]
      constructor
      · rintro (h | ⟨h1, h2⟩)
        · refine ⟨Or.inl h, ?_⟩
          intro hjk; exact hpk (h ▸ hjk)
        · exact ⟨Or.inr h1, h2⟩
      · rintro ⟨(h1 | h1), h2⟩
        · exact Or.inl h1
        · exact Or.inr ⟨h1, h2⟩

theorem containsA_of_lookupA {α : Type} {m : List (String × α)} {k : String}
    {v : α} (h : lookupA m k = some v) : containsA m k = true := by
  induction m with
  | nil => simp [lookupA] at h
  | cons p rest ih =>
    simp only [lookupA] at h
    simp only [containsA, Bool.or_eq_true]
    by_cases hpk : (p.1 == k) = true
    · exact Or.inl hpk
    · simp only [hpk, if_false] at h
      exact Or.inr (ih h)

theorem lookupA_eq_none_iff {α : Type} (m : List (String × α)) (k : String) :
    lookupA m k = none ↔ containsA m k = false := by
  induction m with
  | nil => simp [lookupA, containsA]
  | cons p rest ih =>
    simp only [lookupA, containsA]
    by_cases hpk : (p.1 == k) = true
    · simp [hpk]
    · simp only [Bool.not_eq_true] at hpk
      simp [hpk, ih]

theorem lookupA_removeA_self {α : Type} (m : List (String × α)) (k : String) :
    lookupA (removeA m k) k = none := by
  rw [lookupA_eq_none_iff]
  by_contra h
  simp only [Bool.not_eq_false] at h
  exact absurd rfl (containsA_removeA_iff m k k |>.mp h).2

theorem lookupA_insertA_self {α : Type} (m : List (String × α)) (k : String)
    (v : α) : lookupA (insertA m k v) k = some v := by
  induction m with
  | nil => simp [insertA, lookupA]
  | cons p rest ih =>
    simp only [insertA]
    by_cases hpk : (p.1 == k) = true
    · simp [hpk, lookupA]
    · simp only [hpk, if_false, lookupA]
      simp [hpk, ih]

theorem containsA_insertA_mem {α : Type} (m : List (String × α)) (k : String)
    (v : α) (hm : containsA m k = true) (j : String) :
    containsA (insertA m k v) j = containsA m j := by
  cases hcj : containsA m j with
  | true => exact (containsA_insertA_iff m k j v).mpr (Or.inl hcj)
  | false =>
    by_contra h
    rcases (containsA_insertA_iff m k j v).mp (by revert h; cases containsA (insertA m k v) j <;> simp) with h1 | h1
    · rw [hcj] at h1; cases h1
    · rw [h1, hm] at hcj; cases hcj

theorem roomInvariant_iff (s : RoomState) :
    roomInvariant s = true ↔ RoomInv s := by
  unfold roomInvariant RoomInv
  rw [Bool.and_eq_true, List.all_eq_true, List.all_eq_true]
  constructor
  · rintro ⟨h1, h2⟩
    constructor
    · intro k hk
      rcases (containsA_iff _ _).mp hk with ⟨v, hv⟩
      have := h1 (k, v) hv
      simpa using this
    · intro k hk
      rcases (containsA_iff _ _).mp hk with ⟨v, hv⟩
      exact h2 (k, v) hv
  · rintro ⟨h1, h2⟩
    constructor
    · intro p hp
      have : containsA s.active_user_map p.1 = true :=
        (containsA_iff _ _).mpr ⟨p.2, by cases p; exact hp⟩
      simpa using h1 p.1 this
    · intro p hp
      exact h2 p.1 ((containsA_iff _ _).mpr ⟨p.2, by cases p; exact hp⟩)

theorem containsA_removeA_self {α : Type} (m : List (String × α)) (k : String) :
    containsA (removeA m k) k = false := by
  cases hc : containsA (removeA m k) k with
  | false => rfl
  | true => exact absurd rfl ((containsA_removeA_iff m k k).mp hc).2

theorem containsA_removeA_false {α : Type} (m : List (String × α))
    (k j : String) (h : containsA m j = false) :
    containsA (removeA m k) j = false := by
  cases hc : containsA (removeA m k) j with
  | false => rfl
  | true =>
    have := ((containsA_removeA_iff m k j).mp hc).1
    rw [this] at h
    exact Bool.noConfusion h

theorem containsA_insertA_false {α : Type} (m : List (String × α))
    (k j : String) (v : α) (h : containsA m j = false) (hne : j ≠ k) :
    containsA (insertA m k v) j = false := by
  cases hc : containsA (insertA m k v) j with
  | false => rfl
  | true =>
    rcases (containsA_insertA_iff m k j v).mp hc with h1 | h1
    · rw [h1] at h; exact Bool.noConfusion h
    · exact absurd h1 hne

theorem RoomInv_insert_active (s : RoomState) (ci : ConnectionInfo)
    (uid : String) (h : RoomInv s)
    (hnp : containsA s.passive_user_map uid = false) :
    RoomInv { s with active_user_map := insertA s.active_user_map uid ci } := by
  constructor
  · intro k hk
    rcases (containsA_insertA_iff _ _ _ _).mp hk with h1 | h1
    · exact h.1 k h1
    · subst h1; exact hnp
  · intro k hk
    exact (containsA_insertA_iff _ _ _ _).mpr (Or.inl (h.2 k hk))

theorem join_room_already (md5hex : String → String) (s : RoomState)
    (pw : String) (ih : Bool) (u : UserData) (rc : Nat)
    (h : in_room s u.user_id = true) :
    RoomState.join_room md5hex s pw ih u rc =
      (s, [Output.toUser u.user_id (ClientResponseMessage.AlreadyInRoom s.name)]) := by
  simp [RoomState.join_room, h]

theorem join_room_wrong_pw (md5hex : String → String) (s : RoomState)
    (pw : String) (ih : Bool) (u : UserData) (rc : Nat)
    (h1 : in_room s u.user_id = false)
    (h2 : (s.hashed_password == compute_password md5hex pw ih) = false) :
    RoomState.join_room md5hex s pw ih u rc =
      (s, [Output.toUser u.user_id (ClientResponseMessage.WrongPassword s.name)]) := by
  simp [RoomState.join_room, h1, h2]

theorem join_room_ok (md5hex : String → String) (s : RoomState)
    (pw : String) (ih : Bool) (u : UserData) (rc : Nat)
    (h1 : in_room s u.user_id = false)
    (h2 : (s.hashed_password == compute_password md5hex pw ih) = true) :
    RoomState.join_room md5hex s pw ih u rc = s.do_join_room u rc := by
  simp [RoomState.join_room, h1, h2]

theorem RoomInv_join (md5hex : String → String) (s : RoomState) (pw : String)
    (ih : Bool) (u : UserData) (rc : Nat) (h : RoomInv s) :
    RoomInv (RoomState.join_room md5hex s pw ih u rc).1 := by
  cases h1 : in_room s u.user_id with
  | true => rw [join_room_already md5hex s pw ih u rc h1]; exact h
  | false =>
    cases h2 : (s.hashed_password == compute_password md5hex pw ih) with
    | false => rw [join_room_wrong_pw md5hex s pw ih u rc h1 h2]; exact h
    | true =>
      rw [join_room_ok md5hex s pw ih u rc h1 h2]
      have hnp : containsA s.passive_user_map u.user_id = false := by
        revert h1; unfold in_room
        cases containsA s.passive_user_map u.user_id <;> simp
      exact RoomInv_insert_active s ⟨u, rc⟩ u.user_id h hnp

theorem RoomInv_leave (s : RoomState) (uid : String) (h : RoomInv s) :
    RoomInv (s.leave_room uid).1 := by
  unfold RoomState.leave_room
  simp only []
  split
  · -- removed from the active map
    refine ⟨?_, ?_⟩
    · intro k hk
      exact h.1 k ((containsA_removeA_iff _ _ _).mp hk).1
    · intro k hk
      rcases (containsA_removeA_iff _ _ _).mp hk with ⟨hkv, hkne⟩
      exact (containsA_removeA_iff _ _ _).mpr ⟨h.2 k hkv, hkne⟩
  · split
    · -- removed from the passive map
      refine ⟨?_, ?_⟩
      · intro k hk
        exact containsA_removeA_false _ _ _ (h.1 k hk)
      · intro k hk
        exact h.2 k ((containsA_removeA_iff _ _ _).mp hk).1
    · -- participant was in neither map
      refine ⟨h.1, ?_⟩
      intro k hk
      exact h.2 k ((containsA_removeA_iff _ _ _).mp hk).1

theorem RoomInv_vote (s : RoomState) (uid size : String) (h : RoomInv s) :
    RoomInv (s.vote uid size).1 := by
  unfold RoomState.vote
  split
  · cases hl : lookupA s.active_user_map uid <;> simp only [hl] <;> exact h
  · cases hl : lookupA s.active_user_map uid with
    | none => simp only [hl]; exact h
    | some ci =>
      simp only [hl]
      refine ⟨h.1, ?_⟩
      intro k hk
      rcases (containsA_insertA_iff _ _ _ _).mp hk with h1 | h1
      · exact h.2 k h1
      · subst h1; exact containsA_of_lookupA hl

theorem RoomInv_new_vote (s : RoomState) (uid : String) (h : RoomInv s) :
    RoomInv (s.new_vote uid).1 := by
  unfold RoomState.new_vote
  split
  · refine ⟨h.1, ?_⟩
    intro k hk
    simp [containsA] at hk
  · exact h

theorem RoomInv_update_active (s : RoomState) (uid : String) (active : Bool)
    (h : RoomInv s) : RoomInv (s.update_active uid active).1 := by
  unfold RoomState.update_active
  cases active with
  | true =>
    cases hl : lookupA s.passive_user_map uid with
    | none => simp only [Bool.cond_true, if_true, hl]; exact h
    | some ci =>
      simp only [if_true, hl]
      refine ⟨?_, ?_⟩
      · intro k hk
        rcases (containsA_insertA_iff _ _ _ _).mp hk with h1 | h1
        · exact containsA_removeA_false _ _ _ (h.1 k h1)
        · subst h1; exact containsA_removeA_self _ _
      · intro k hk
        exact (containsA_insertA_iff _ _ _ _).mpr (Or.inl (h.2 k hk))
  | false =>
    cases hl : lookupA s.active_user_map uid with
    | none => simp only [if_false, hl]; exact h
    | some ci =>
      simp only [if_false, hl]
      refine ⟨?_, ?_⟩
      · intro k hk
        rcases (containsA_removeA_iff _ _ _).mp hk with ⟨hkv, hkne⟩
        exact containsA_insertA_false _ _ _ _ (h.1 k hkv) hkne
      · intro k hk
        rcases (containsA_removeA_iff _ _ _).mp hk with ⟨hkv, hkne⟩
        exact (containsA_removeA_iff _ _ _).mpr ⟨h.2 k hkv, hkne⟩

theorem RoomInv_keyset_active (s : RoomState) (uid : String)
    (ci : ConnectionInfo) (hm : containsA s.active_user_map uid = true)
    (h : RoomInv s) :
    RoomInv { s with active_user_map := insertA s.active_user_map uid ci } := by
  refine ⟨?_, ?_⟩
  · intro k hk
    rw [containsA_insertA_mem _ _ _ hm] at hk
    exact h.1 k hk
  · intro k hk
    rw [containsA_insertA_mem _ _ _ hm]
    exact h.2 k hk

theorem RoomInv_keyset_passive (s : RoomState) (uid : String)
    (ci : ConnectionInfo) (hm : containsA s.passive_user_map uid = true)
    (h : RoomInv s) :
    RoomInv { s with passive_user_map := insertA s.passive_user_map uid ci } := by
  refine ⟨?_, ?_⟩
  · intro k hk
    rw [containsA_insertA_mem _ _ _ hm]
    exact h.1 k hk
  · exact h.2

theorem RoomInv_user_updated (s : RoomState) (u : UserData) (h : RoomInv s) :
    RoomInv (s.user_updated u).1 := by
  unfold RoomState.user_updated
  cases h1 : lookupA s.active_user_map u.user_id with
  | none =>
    simp only [h1]
    cases h2 : lookupA s.passive_user_map u.user_id with
    | none => simp only [h2]; exact h
    | some ci =>
      simp only [h2]
      exact RoomInv_keyset_passive s u.user_id _ (containsA_of_lookupA h2) h
  | some ci =>
    simp only [h1]
    have hs1 : RoomInv
        { s with active_user_map :=
            insertA s.active_user_map u.user_id { ci with user := u } } :=
      RoomInv_keyset_active s u.user_id _ (containsA_of_lookupA h1) h
    cases h2 : lookupA s.passive_user_map u.user_id with
    | none => simp only [h2]; exact hs1
    | some ci2 =>
      simp only [h2]
      refine RoomInv_keyset_passive
        { s with active_user_map :=
            insertA s.active_user_map u.user_id { ci with user := u } }
        u.user_id _ ?_ hs1
      exact containsA_of_lookupA h2

theorem RoomInv_change_scale (s : RoomState) (nm : String) (h : RoomInv s) :
    RoomInv (s.change_scale nm).1 := by
  unfold RoomState.change_scale
  cases hl : lookupA s.scale_values nm with
  | none => simp only [hl]; exact h
  | some sc => simp only [hl]; exact ⟨h.1, h.2⟩

/-- C1 counterexample: in a room whose active member set is empty (q is only
a passive member, no votes cast), the round-status re-evaluation
`send_vote_info` does broadcast VoteResults — refuting the claim that a
VoteResults broadcast requires a non-empty active member set. -/
theorem C1_counterexample :
    roomNoActive.active_user_map = [] ∧
    send_vote_info roomNoActive =
      [Output.broadcast ["q"] (ClientResponseMessage.VoteResults "room" [])] :=
  ⟨rfl, rfl⟩

/-- C1 (amended): a round-status re-evaluation broadcasts the full vote map
as VoteResults exactly when the vote-map size equals the active-member-set
size — with no non-emptiness requirement, so an empty active set (with its
then-empty vote map) also triggers a VoteResults broadcast — and in every
other state it broadcasts only the VoteStatus has-voted booleans, never vote
values. -/
theorem C1_amended_vote_results_iff (s : RoomState) :
    (send_vote_info s =
        [mkBroadcast s (ClientResponseMessage.VoteResults s.name s.vote_map)] ↔
      s.vote_map.length = s.active_user_map.length) ∧
    (s.vote_map.length ≠ s.active_user_map.length →
      send_vote_info s =
        [mkBroadcast s
          (ClientResponseMessage.VoteStatus s.name (has_voted_map s))]) := by
  unfold send_vote_info voting_over
  by_cases h : s.vote_map.length = s.active_user_map.length
  · simp [h]
  · have hb : (s.vote_map.length == s.active_user_map.length) = false := by
      simpa using h
    simp [hb, h, mkBroadcast]

/-- C1 amended-claim witness: a room with one active member and no votes is
not round-complete, so only VoteStatus is broadcast. -/
theorem C1_amended_witness :
    send_vote_info roomOneActive =
      [mkBroadcast roomOneActive
        (ClientResponseMessage.VoteStatus roomOneActive.name
          (has_voted_map roomOneActive))] :=
  (C1_amended_vote_results_iff roomOneActive).2 (by decide)

/-- C2: every RoomActor operation (join, leave, vote, new round, active
toggle, scale change, randomize, profile update) preserves the invariant
that the active and passive member maps have disjoint key sets and every
vote-map key is an active-member key. -/
theorem C2_invariant_preserved (md5hex : String → String) (s : RoomState)
    (op : RoomOp) (h : roomInvariant s = true) :
    roomInvariant (RoomState.step md5hex s op).1 = true := by
  rw [roomInvariant_iff] at h ⊢
  cases op with
  | join pw ih u rc => exact RoomInv_join md5hex s pw ih u rc h
  | leave uid => exact RoomInv_leave s uid h
  | vote uid size => exact RoomInv_vote s uid size h
  | newRound uid => exact RoomInv_new_vote s uid h
  | updateActive uid active => exact RoomInv_update_active s uid active h
  | changeScale nm => exact RoomInv_change_scale s nm h
  | randomize r => exact h
  | profileUpdated u => exact RoomInv_user_updated s u h

/-- C2 witness: the invariant holds of the p-active/q-passive room with p's
vote, and is preserved when p is demoted to passive. -/
theorem C2_witness :
    roomInvariant roomPQ = true ∧
    roomInvariant
      ((RoomState.step (fun x => x) roomPQ (RoomOp.updateActive "p" false)).1) =
      true :=
  ⟨by decide,
   C2_invariant_preserved (fun x => x) roomPQ (RoomOp.updateActive "p" false)
     (by decide)⟩

/-- C6: for an active member (stored under `uid` with connection `ci`):
when the round is already complete the vote handler replies VotingOver to
that member only and changes nothing; otherwise it records the vote
(overwriting any previous entry), replies OwnVote with the value to the
voter alone, and broadcasts round status exactly when this was the
participant's first vote of the round. -/
theorem C6_vote_behavior (s : RoomState) (uid size : String)
    (ci : ConnectionInfo) (hm : lookupA s.active_user_map uid = some ci) :
    (voting_over s = true →
      RoomState.vote s uid size =
        (s, [Output.toUser ci.user.user_id ClientResponseMessage.VotingOver])) ∧
    (voting_over s = false →
      RoomState.vote s uid size =
        ({ s with vote_map := insertA s.vote_map uid size },
         Output.toUser ci.user.user_id
             (ClientResponseMessage.OwnVote s.name size) ::
           (if containsA s.vote_map uid then []
            else send_vote_info
              { s with vote_map := insertA s.vote_map uid size }))) := by
  constructor
  · intro hv
    simp [RoomState.vote, hv, hm]
  · intro hv
    simp [RoomState.vote, hv, hm]

/-- C6 witness: in roomPQ the round is complete, so p's re-vote gets only
VotingOver; in roomOneActive the round is open, so p's first vote is
recorded, acknowledged with OwnVote, and VoteResults (now complete) is
broadcast. -/
theorem C6_witness :
    (voting_over roomPQ = true ∧
      RoomState.vote roomPQ "p" "5" =
        (roomPQ, [Output.toUser "p" ClientResponseMessage.VotingOver])) ∧
    (voting_over roomOneActive = false ∧
      RoomState.vote roomOneActive "p" "5" =
        ({ roomOneActive with vote_map := [("p", "5")] },
         [Output.toUser "p" (ClientResponseMessage.OwnVote "room" "5"),
          Output.broadcast ["p"]
            (ClientResponseMessage.VoteResults "room" [("p", "5")])])) := by
  constructor
  · refine ⟨by decide, ?_⟩
    have h := (C6_vote_behavior roomPQ "p" "5" ciP (by decide)).1 (by decide)
    simpa [ciP, userP] using h
  · refine ⟨by decide, ?_⟩
    have h :=
      (C6_vote_behavior roomOneActive "p" "5" ciP (by decide)).2 (by decide)
    simpa [ciP, userP, roomOneActive, insertA, containsA, send_vote_info,
      voting_over, mkBroadcast, member_ids] using h

/-- C7: a join attempt by a non-member whose password commitment differs
from the room's stored commitment yields exactly a WrongPassword reply to
that participant and leaves the room state (in particular both membership
maps) unchanged. -/
theorem C7_wrong_password (md5hex : String → String) (s : RoomState)
    (pw : String) (ih : Bool) (u : UserData) (rc : Nat)
    (h1 : in_room s u.user_id = false)
    (h2 : (s.hashed_password == compute_password md5hex pw ih) = false) :
    RoomState.join_room md5hex s pw ih u rc =
      (s, [Output.toUser u.user_id (ClientResponseMessage.WrongPassword s.name)]) :=
  join_room_wrong_pw md5hex s pw ih u rc h1 h2

/-- C7 witness: q joining roomOneActive with the wrong password "x" gets
exactly WrongPassword and the room is unchanged. -/
theorem C7_witness :
    RoomState.join_room (fun x => x) roomOneActive "x" true userQ 7 =
      (roomOneActive,
       [Output.toUser "q" (ClientResponseMessage.WrongPassword "room")]) := by
  have h := C7_wrong_password (fun x => x) roomOneActive "x" true userQ 7
    (by decide) (by decide)
  simpa [roomOneActive, userQ] using h

/-- C8: with the fixed scale catalog, changing the scale to a name outside
the catalog leaves the selected scale name unchanged and emits nothing
(no broadcast, no error); changing it to a catalog name updates the
selected scale name and broadcasts ScaleChanged with that scale's
definition. -/
theorem C8_change_scale (s : RoomState) (nm : String)
    (hcat : s.scale_values = defaultScales) :
    (lookupA defaultScales nm = none → s.change_scale nm = (s, [])) ∧
    (∀ sc, lookupA defaultScales nm = some sc →
      s.change_scale nm =
        ({ s with selected_scale_name := nm },
         [mkBroadcast s (ClientResponseMessage.ScaleChanged s.name sc)])) := by
  constructor
  · intro h
    simp [RoomState.change_scale, hcat, h]
  · intro sc h
    simp [RoomState.change_scale, hcat, h, mkBroadcast, member_ids]

/-- C8 witness: an unknown scale key is a silent no-op; the catalog key
"fistOfFive" is selected and broadcast with its definition. -/
theorem C8_witness :
    RoomState.change_scale roomOneActive "nope" = (roomOneActive, []) ∧
    RoomState.change_scale roomOneActive "fistOfFive" =
      ({ roomOneActive with selected_scale_name := "fistOfFive" },
       [Output.broadcast ["p"]
         (ClientResponseMessage.ScaleChanged "room" fistOfFiveScale)]) := by
  constructor
  · exact (C8_change_scale roomOneActive "nope" rfl).1 (by decide)
  · have h := (C8_change_scale roomOneActive "fistOfFive" rfl).2 fistOfFiveScale
      (by decide)
    simpa [mkBroadcast, member_ids, roomOneActive] using h

/-- C10: randomize over an active set of exactly one member always
broadcasts Randomized selecting that member, for any value of the random
draw; over an empty active set it broadcasts nothing and leaves the room
state unchanged. -/
theorem C10_randomize (s : RoomState) (rand : Nat) (md5hex : String → String) :
    (∀ k ci, s.active_user_map = [(k, ci)] →
      s.randomize rand =
        [mkBroadcast s (ClientResponseMessage.Randomized s.name k)]) ∧
    (s.active_user_map = [] →
      s.randomize rand = [] ∧
      (RoomState.step md5hex s (RoomOp.randomize rand)).1 = s) := by
  constructor
  · intro k ci h
    simp [RoomState.randomize, h]
  · intro h
    exact ⟨by simp [RoomState.randomize, h], rfl⟩

/-- C10 witness: with p as the sole active member the spotlight always
selects p (random draw 5 shown); with no active member nothing is
broadcast. -/
theorem C10_witness :
    RoomState.randomize roomOneActive 5 =
      [Output.broadcast ["p"] (ClientResponseMessage.Randomized "room" "p")] ∧
    RoomState.randomize roomNoActive 5 = [] := by
  constructor
  · have h := (C10_randomize roomOneActive 5 (fun x => x)).1 "p" ciP rfl
    simpa [mkBroadcast, member_ids, roomOneActive] using h
  · exact ((C10_randomize roomNoActive 5 (fun x => x)).2 rfl).1

/-- C3 counterexample: p is an active member of "room" and holds the
directory entry p→"room"; p's second JoinRoom for that same room is
answered with CannotJoinMultipleRooms — not with the AlreadyInRoom reply
the claim requires — because the Directory rejects before the room's
membership check can run. -/
theorem C3_counterexample :
    handleJoinRoom (fun x => x) sysP "room" "h" true userP 0 =
      (sysP, [Output.toUser "p" ClientResponseMessage.CannotJoinMultipleRooms]) ∧
    Output.toUser "p" (ClientResponseMessage.AlreadyInRoom "room") ∉
      (handleJoinRoom (fun x => x) sysP "room" "h" true userP 0).2 := by
  constructor
  · decide
  · decide

/-- C3 (amended): a second JoinRoom by a participant who is a member of the
room and holds a directory entry for it yields exactly a
CannotJoinMultipleRooms reply — the Directory rejects any join while the
participant's directory entry exists, even for the same room, so the room's
AlreadyInRoom reply is never reached — with no membership change and no
broadcast. -/
theorem C3_amended_same_room_join (md5hex : String → String) (s : SystemState)
    (rn pw : String) (ih : Bool) (u : UserData) (rc : Nat) (r : RoomState)
    (hval : valid_room_name rn = true)
    (hroom : lookupA s.rooms rn = some r)
    (hin : in_room r u.user_id = true)
    (hmem : lookupA s.user_room_map u.user_id = some rn) :
    handleJoinRoom md5hex s rn pw ih u rc =
      (s, [Output.toUser u.user_id
            ClientResponseMessage.CannotJoinMultipleRooms]) := by
  have hc : containsA s.rooms rn = true := containsA_of_lookupA hroom
  simp [handleJoinRoom, hval, hc, hmem]

/-- C3 amended-claim witness: the concrete rejoin of "room" by p. -/
theorem C3_witness :
    handleJoinRoom (fun x => x) sysP "room" "zzz" true userP 3 =
      (sysP, [Output.toUser "p" ClientResponseMessage.CannotJoinMultipleRooms]) :=
  C3_amended_same_room_join (fun x => x) sysP "room" "zzz" true userP 3
    roomOneActive (by decide) (by decide) (by decide) (by decide)

/-- C4 counterexample: p is in "roomA" and attempts to join the
not-yet-existing "roomB"; the request is rejected with
CannotJoinMultipleRooms, yet "roomB" now exists in the room registry —
contradicting the claim that no new room is created. -/
theorem C4_counterexample :
    (handleJoinRoom (fun x => x) sysA "roomB" "pw" true userP 0).2 =
      [Output.toUser "p" ClientResponseMessage.CannotJoinMultipleRooms] ∧
    containsA (handleJoinRoom (fun x => x) sysA "roomB" "pw" true
      userP 0).1.rooms "roomB" = true := by
  constructor
  · decide
  · decide

/-- C4 (amended): a valid-name JoinRoom by a participant who already has a
directory entry (for a different room) is rejected with
CannotJoinMultipleRooms and leaves the participant→room directory
unchanged; however, if the target room did not yet exist it is first
created and remains registered (as an empty room) — room creation happens
before the multiple-rooms check. -/
theorem C4_amended_join_other_room (md5hex : String → String) (s : SystemState)
    (rn rn0 pw : String) (ih : Bool) (u : UserData) (rc : Nat)
    (hval : valid_room_name rn = true)
    (hmem : lookupA s.user_room_map u.user_id = some rn0)
    (hne : rn ≠ rn0) :
    (handleJoinRoom md5hex s rn pw ih u rc).2 =
      [Output.toUser u.user_id ClientResponseMessage.CannotJoinMultipleRooms] ∧
    (handleJoinRoom md5hex s rn pw ih u rc).1.user_room_map =
      s.user_room_map ∧
    (handleJoinRoom md5hex s rn pw ih u rc).1.rooms =
      (if containsA s.rooms rn then s.rooms
       else insertA s.rooms rn (RoomActor.new md5hex rn pw ih)) := by
  refine ⟨?_, ?_, ?_⟩ <;> simp [handleJoinRoom, hval, hmem]

/-- C4 amended-claim witness: p (in "roomA") asks to join "roomC"; the
directory mapping is untouched while "roomC" is created and registered. -/
theorem C4_witness :
    (handleJoinRoom (fun x => x) sysA "roomC" "pw" true userP 2).2 =
      [Output.toUser "p" ClientResponseMessage.CannotJoinMultipleRooms] ∧
    (handleJoinRoom (fun x => x) sysA "roomC" "pw" true userP 2).1.user_room_map =
      sysA.user_room_map := by
  have h := C4_amended_join_other_room (fun x => x) sysA "roomC" "roomA" "pw"
    true userP 2 (by decide) (by decide) (by decide)
  exact ⟨by simpa using h.1, h.2.1⟩

/-- C5 counterexample: the Directory's handling of a room closure removes
the room registry entry but leaves q's participant→room entry pointing at
the closed room — contradicting the claim that both are removed. -/
theorem C5_counterexample :
    (room_closing sysC "room").rooms = [] ∧
    lookupA (room_closing sysC "room").user_room_map "q" = some "room" := by
  constructor
  · decide
  · decide

/-- C5 (amended): when a departure leaves the active member set empty the
room does signal RoomClosing to the Directory; the Directory's handling of
that closure removes only the room-name→room registry entry and leaves
every participant→room-name entry — including any pointing at the closed
room — in place. -/
theorem C5_amended_close_behavior :
    (∀ (r : RoomState) (uid : String),
      (r.leave_room uid).1.active_user_map = [] →
        Output.toManager (RoomMessage.RoomClosing r.name) ∈
          (r.leave_room uid).2) ∧
    (∀ (s : SystemState) (rn : String),
      (room_closing s rn).rooms = removeA s.rooms rn ∧
      (room_closing s rn).user_room_map = s.user_room_map) := by
  constructor
  · intro r uid h
    cases h1 : containsA r.active_user_map uid with
    | true =>
      simp only [RoomState.leave_room, h1, if_true] at h ⊢
      simp [h]
    | false =>
      cases h2 : containsA r.passive_user_map uid with
      | true =>
        simp only [RoomState.leave_room, h1, h2, if_true, if_false,
          Bool.false_eq_true] at h ⊢
        simp [h]
      | false =>
        simp only [RoomState.leave_room, h1, h2, if_false,
          Bool.false_eq_true] at h ⊢
        simp [h]
  · intro s rn
    exact ⟨rfl, rfl⟩

/-- C5 amended-claim witness: p leaving roomPQ empties the active set and
RoomClosing is emitted; closing "room" in sysC keeps q's stale directory
entry. -/
theorem C5_witness :
    (RoomState.leave_room roomPQ "p").1.active_user_map = [] ∧
    Output.toManager (RoomMessage.RoomClosing "room") ∈
      (RoomState.leave_room roomPQ "p").2 ∧
    (room_closing sysC "room").user_room_map = sysC.user_room_map := by
  refine ⟨by decide, ?_, (C5_amended_close_behavior.2 sysC "room").2⟩
  have h := C5_amended_close_behavior.1 roomPQ "p" (by decide)
  simpa [roomPQ] using h

/-- C9: when a non-member with no directory entry joins an existing room
with a wrong password, the reply is WrongPassword, yet the Directory has
already recorded (and does not roll back) the participant→room mapping; any
subsequent valid-name JoinRoom by that participant therefore yields
CannotJoinMultipleRooms, until a LeaveRoom (the disconnect path reuses the
same removal) deletes the entry. -/
theorem C9_wrong_password_mapping_persists (md5hex : String → String)
    (s : SystemState) (rn pw : String) (ih : Bool) (u : UserData) (rc : Nat)
    (r : RoomState)
    (hval : valid_room_name rn = true)
    (hnomem : lookupA s.user_room_map u.user_id = none)
    (hroom : lookupA s.rooms rn = some r)
    (hnotin : in_room r u.user_id = false)
    (hpw : (r.hashed_password == compute_password md5hex pw ih) = false) :
    (handleJoinRoom md5hex s rn pw ih u rc).2 =
      [Output.toUser u.user_id (ClientResponseMessage.WrongPassword r.name)] ∧
    lookupA (handleJoinRoom md5hex s rn pw ih u rc).1.user_room_map u.user_id =
      some rn ∧
    (∀ rn2 pw2 ih2 rc2, valid_room_name rn2 = true →
      (handleJoinRoom md5hex (handleJoinRoom md5hex s rn pw ih u rc).1
          rn2 pw2 ih2 u rc2).2 =
        [Output.toUser u.user_id
          ClientResponseMessage.CannotJoinMultipleRooms]) ∧
    (∀ rn3,
      lookupA (handleLeaveRoom (handleJoinRoom md5hex s rn pw ih u rc).1
          u.user_id rn3).1.user_room_map u.user_id = none) := by
  have hc : containsA s.rooms rn = true := containsA_of_lookupA hroom
  have hjoin : handleJoinRoom md5hex s rn pw ih u rc =
      ({ rooms := insertA s.rooms rn r,
         user_room_map := insertA s.user_room_map u.user_id rn },
       [Output.toUser u.user_id (ClientResponseMessage.WrongPassword r.name)]) := by
    simp [handleJoinRoom, hval, hc, hnomem, hroom,
      join_room_wrong_pw md5hex r pw ih u rc hnotin hpw]
  rw [hjoin]
  refine ⟨rfl, lookupA_insertA_self _ _ _, ?_, ?_⟩
  · intro rn2 pw2 ih2 rc2 hval2
    simp [handleJoinRoom, hval2, lookupA_insertA_self]
  · intro rn3
    unfold handleLeaveRoom
    cases hl : lookupA (insertA s.rooms rn r) rn3 with
    | none => simp [hl, lookupA_removeA_self]
    | some r3 => simp [hl, lookupA_removeA_self]

/-- C9 witness: q's join of "room" with a bad password is rejected with
WrongPassword, q's later attempt to join "other" is rejected with
CannotJoinMultipleRooms, and a LeaveRoom clears q's directory entry. -/
theorem C9_witness :
    (handleJoinRoom (fun x => x) sysR "room" "bad" true userQ 9).2 =
      [Output.toUser "q" (ClientResponseMessage.WrongPassword "room")] ∧
    (handleJoinRoom (fun x => x)
        (handleJoinRoom (fun x => x) sysR "room" "bad" true userQ 9).1
        "other" "pw" true userQ 9).2 =
      [Output.toUser "q" ClientResponseMessage.CannotJoinMultipleRooms] ∧
    lookupA (handleLeaveRoom
        (handleJoinRoom (fun x => x) sysR "room" "bad" true userQ 9).1
        "q" "room").1.user_room_map "q" = none := by
  have h := C9_wrong_password_mapping_persists (fun x => x) sysR "room" "bad"
    true userQ 9 roomOneActive (by decide) (by decide) (by decide) (by decide)
    (by decide)
  refine ⟨by simpa using h.1, ?_, ?_⟩
  · have h2 := h.2.2.1 "other" "pw" true 9 (by decide)
    simpa using h2
  · have h3 := h.2.2.2 "room"
    simpa using h3
